import Mathlib

/-!
Verification of the hirepro-be tenant/membership/invitation subsystem.

Shallow embedding of the relevant source files:
  src/accounts/models.py, src/accounts/backends.py, src/accounts/helpers.py,
  src/accounts/views.py, src/companies/models.py, src/companies/helpers.py,
  src/companies/views.py.

The relational store is modelled as lists of rows; Django querysets become
list filters, `Model.objects.get` becomes a match on the filtered list
(`DoesNotExist` / `MultipleObjectsReturned`), and database-generated fresh
values (primary keys, uuid4 passwords, token keys) are explicit arguments.
A Django password hash is modelled as `Option String`: `some p` is a usable
hash of plaintext `p`, `none` is an unusable password, matching
`has_usable_password` / `check_password` / `set_password` semantics.
-/

namespace HirePro

/-- accounts.models.User (AbstractUser fields we use plus the custom ones). -/
structure UserR where
  id : Nat
  username : String
  email : String
  password : Option String
  userType : String
  firstName : String
  lastName : String
  phone : String
  isActive : Bool
deriving DecidableEq

/-- Django `User.has_usable_password()`. -/
def UserR.hasUsablePassword (u : UserR) : Bool := u.password.isSome

/-- Django `User.check_password(plaintext)`; an unusable password never matches. -/
def UserR.checkPassword (u : UserR) (plaintext : String) : Bool :=
  u.password == some plaintext

/-- companies.models.Company. -/
structure CompanyR where
  id : Nat
  name : String
  subdomain : String
  description : String
  website : String
  status : String
  contactEmail : String
  contactPhone : String
  address : String
deriving DecidableEq

/-- companies.models.CompanyUser (the membership row). -/
structure CompanyUserR where
  userId : Nat
  companyId : Nat
  role : String
  permissions : List (String × String)
  status : String
  invitedById : Option Nat
  invitedAt : Nat
  activatedAt : Option Nat
deriving DecidableEq

/-- rest_framework.authtoken.models.Token: key is the primary key, user is
a OneToOneField, so there is at most one token per user and per key. -/
structure TokenR where
  key : String
  userId : Nat
deriving DecidableEq

/-- The payload handed to utils.email.send_email that the claims mention:
recipient and the template-context fields `dashboard_url` / `is_new_user`.
The free-text subject and body are the external notifier's concern. -/
structure EmailMsg where
  toEmail : String
  dashboardUrl : Option String
  isNewUser : Bool
deriving DecidableEq

/-- The relational store plus the outbox of dispatched notifications. -/
structure St where
  users : List UserR
  companies : List CompanyR
  companyUsers : List CompanyUserR
  tokens : List TokenR
  outbox : List EmailMsg
deriving DecidableEq

/-- Error taxonomy as surfaced by the embedded code paths. `fieldError`,
`multipleObjectsReturned` and `integrityError` are exceptions the views do
not catch (HTTP 500); the rest map to the 4xx responses in the source. -/
inductive ApiErr where
  | invalidRole (role : String)
  | fieldError (field : String)
  | multipleObjectsReturned
  | doesNotExist
  | invalidToken
  | missingField (field : String)
  | validationErrors (errs : List (String × String))
  | forbidden
  | notFound
  | lastAdmin
  | integrityError
deriving DecidableEq

/-- `settings.FRONTEND_BASE_URL`: deployment configuration (the settings
module is not part of the modelled source); its value is irrelevant to
every verified property. -/
def FRONTEND_BASE_URL : String := "hirepro.app"

/-- `User.objects.get(email=email)`. -/
def getUserByEmail (s : St) (email : String) : Except ApiErr UserR :=
  match s.users.filter (fun u => u.email == email) with
  | [] => .error .doesNotExist
  | [u] => .ok u
  | _ => .error .multipleObjectsReturned

/-- `User.objects.get(Q(email=username) | Q(username=username))` from
accounts.backends.EmailBackend.authenticate. -/
def getUserByEmailOrUsername (s : St) (handle : String) : Except ApiErr UserR :=
  match s.users.filter (fun u => u.email == handle || u.username == handle) with
  | [] => .error .doesNotExist
  | [u] => .ok u
  | _ => .error .multipleObjectsReturned

/-- `Token.objects.get_or_create(user=user)`: reuse the user's token if one
exists, otherwise create one whose key is the DB-generated `freshKey`. -/
def Token_get_or_create (s : St) (uid : Nat) (freshKey : String) : TokenR × St :=
  match s.tokens.find? (fun t => t.userId == uid) with
  | some t => (t, s)
  | none => (⟨freshKey, uid⟩, { s with tokens := s.tokens ++ [⟨freshKey, uid⟩] })

/-- The declared fields of companies.models.CompanyUser (plus the implicit
auto primary key), against which Django resolves ordering names. -/
def companyUserFieldNames : List String :=
  ["id", "user", "company", "role", "permissions", "status",
   "invited_by", "invited_at", "activated_at"]

/-- `CompanyUser.objects.filter(user=user, status='active').order_by('-created_at').first()`
as written in accounts/views.py. Django resolves the ordering name against
the model's fields and raises `FieldError` for an unknown name before any
row is returned; `CompanyUser` has no `created_at` field (only `invited_at`
and `activated_at`), so this call always raises. The ordered read in the
then-branch is therefore unreachable for this call site. -/
def mostRecentActiveCompanyUser (s : St) (uid : Nat) :
    Except ApiErr (Option CompanyUserR) :=
  if companyUserFieldNames.contains "created_at" then
    .ok ((s.companyUsers.filter (fun m => m.userId == uid && m.status == "active")).head?)
  else
    .error (.fieldError "created_at")

/-- Company block of the validate_setup_token / complete_user_setup responses. -/
structure SetupCompanyInfo where
  companyId : Nat
  name : String
  subdomain : String
  role : String
deriving DecidableEq

/-- Response body of accounts.views.validate_setup_token. -/
structure ValidateSetupResponse where
  tokenValid : Bool
  requiresSetup : Bool
  userId : Nat
  email : String
  firstName : String
  lastName : String
  userType : String
  company : Option SetupCompanyInfo
deriving DecidableEq

/-- Looks up the company referenced by a membership row and builds the
company block of the setup responses. -/
def setupCompanyData (s : St) (cuOpt : Option CompanyUserR) : Option SetupCompanyInfo :=
  cuOpt.bind (fun cu =>
    (s.companies.find? (fun c => c.id == cu.companyId)).map (fun c =>
      { companyId := c.id, name := c.name, subdomain := c.subdomain, role := cu.role }))

/-- accounts.views.validate_setup_token. The setup token is resolved as a
bearer AuthToken; `requires_setup` is the negation of
`user.has_usable_password()`. The company lookup then orders `CompanyUser`
by the nonexistent `created_at` field. -/
def validate_setup_token (s : St) (tokenKey : Option String) :
    Except ApiErr ValidateSetupResponse :=
  match tokenKey with
  | none => .error (.missingField "token")
  | some k =>
    if k == "" then .error (.missingField "token")
    else
      match s.tokens.find? (fun t => t.key == k) with
      | none => .error .invalidToken
      | some tok =>
        match s.users.find? (fun u => u.id == tok.userId) with
        | none => .error .doesNotExist
        | some user =>
          let requires_setup := !user.hasUsablePassword
          match mostRecentActiveCompanyUser s user.id with
          | .error e => .error e
          | .ok cuOpt =>
            .ok { tokenValid := true
                  requiresSetup := requires_setup
                  userId := user.id
                  email := user.email
                  firstName := user.firstName
                  lastName := user.lastName
                  userType := user.userType
                  company := setupCompanyData s cuOpt }

/-- Response body of accounts.views.complete_user_setup. -/
structure CompleteSetupResponse where
  userId : Nat
  email : String
  firstName : String
  lastName : String
  userType : String
  token : String
  company : Option SetupCompanyInfo
deriving DecidableEq

/-- Models the falsy check `if not request.data.get(field)` on a string
field: absent or empty counts as missing. -/
def presentNonEmpty : Option String → Option String
  | some v => if v == "" then none else some v
  | none => none

/-- accounts.views.complete_user_setup. The request is not wrapped in a
transaction, so the user update and token rotation persist even though the
subsequent company lookup raises `FieldError` on the nonexistent
`CompanyUser.created_at` ordering, aborting the request before the
completion email and response are produced. -/
def complete_user_setup (s : St)
    (tokenKey password firstName lastName phone : Option String)
    (freshTokenKey : String) : Except ApiErr CompleteSetupResponse × St :=
  match tokenKey with
  | none => (.error (.missingField "token"), s)
  | some k =>
    if k == "" then (.error (.missingField "token"), s)
    else
      match s.tokens.find? (fun t => t.key == k) with
      | none => (.error .invalidToken, s)
      | some tok =>
        match s.users.find? (fun u => u.id == tok.userId) with
        | none => (.error .doesNotExist, s)
        | some user =>
          match presentNonEmpty password with
          | none => (.error (.missingField "password"), s)
          | some pw =>
            match presentNonEmpty firstName with
            | none => (.error (.missingField "first_name"), s)
            | some fn =>
              match presentNonEmpty lastName with
              | none => (.error (.missingField "last_name"), s)
              | some ln =>
                let user2 : UserR :=
                  { user with
                    firstName := fn
                    lastName := ln
                    password := some pw
                    phone := phone.getD user.phone }
                let s1 : St := { s with users := s.users.map (fun (v : UserR) => if v.id == user.id then user2 else v) }
                let newTok : TokenR := ⟨freshTokenKey, user.id⟩
                let s2 : St := { s1 with tokens := (s1.tokens.filter (fun (t : TokenR) => !(t.key == k))) ++ [newTok] }
                match mostRecentActiveCompanyUser s2 user2.id with
                | .error e => (.error e, s2)
                | .ok cuOpt =>
                  let msg : EmailMsg := { toEmail := user2.email, dashboardUrl := none, isNewUser := false }
                  let s3 := { s2 with outbox := s2.outbox ++ [msg] }
                  let resp : CompleteSetupResponse :=
                    { userId := user2.id
                      email := user2.email
                      firstName := user2.firstName
                      lastName := user2.lastName
                      userType := user2.userType
                      token := freshTokenKey
                      company := setupCompanyData s2 cuOpt }
                  (.ok resp, s3)

/-- The `valid_roles` list hardcoded in companies.helpers.invite_company_user.
Note it differs from `CompanyUser.ROLE_CHOICES`: it accepts `recruiter` and
omits `hr_recruiter` and `csr`. -/
def validRoles : List String := ["company_admin", "hr_manager", "interviewer", "recruiter"]

/-- The role values declared in companies.models.CompanyUser.ROLE_CHOICES. -/
def CompanyUser_ROLE_CHOICES : List String :=
  ["company_admin", "hr_manager", "hr_recruiter", "interviewer", "csr"]

/-- Saving the membership object returned by `.first()` with a new role:
the first row matching the (user, company) pair gets the new role. -/
def setRoleFirst (rows : List CompanyUserR) (uid cid : Nat) (role : String) :
    List CompanyUserR :=
  match rows with
  | [] => []
  | m :: ms =>
    if m.userId == uid && m.companyId == cid then { m with role := role } :: ms
    else m :: setRoleFirst ms uid cid role

/-- The membership create-or-upgrade step of companies.helpers.invite_company_user:
`CompanyUser.objects.filter(user=user, company=company).first()`; if absent,
create an active membership with the requested role; if present with a
different role, upgrade only if the new role is company_admin or the
existing role is not company_admin, saving the fetched row. -/
def membershipStep (rows : List CompanyUserR) (uid cid : Nat) (role : String)
    (invitedById : Option Nat) (now : Nat) : List CompanyUserR :=
  match (rows.filter (fun m => m.userId == uid && m.companyId == cid)).head? with
  | none =>
    let row : CompanyUserR :=
      { userId := uid
        companyId := cid
        role := role
        permissions := []
        status := "active"
        invitedById := invitedById
        invitedAt := now
        activatedAt := some now }
    rows ++ [row]
  | some existing_company_user =>
    if existing_company_user.role ≠ role then
      if role = "company_admin" ∨ existing_company_user.role ∉ ["company_admin"] then
        setRoleFirst rows uid cid role
      else rows
    else rows

/-- companies.helpers.invite_company_user. `tempPassword` is the uuid4
generated for a new user (stored by `create_user` as a usable password),
`newUserId` the database-assigned primary key, `freshTokenKey` the key a
newly created token would get, `now` the invite timestamp. A duplicate
username on `create_user` violates the store's unique constraint inside the
atomic block and surfaces as an uncaught `IntegrityError`. -/
def invite_company_user (s : St) (company : CompanyR) (email role : String)
    (invitedBy : UserR) (tempPassword : String) (newUserId : Nat)
    (freshTokenKey : String) (now : Nat) :
    Except ApiErr (UserR × TokenR) × St :=
  if role ∉ validRoles then (.error (.invalidRole role), s)
  else
    -- with transaction.atomic(): resolve or create the user
    let resolved : Except ApiErr (UserR × Bool × St) :=
      match getUserByEmail s email with
      | .ok u => .ok (u, true, s)
      | .error .doesNotExist =>
        if s.users.any (fun u => u.username == email) then .error .integrityError
        else
          let u : UserR :=
            { id := newUserId
              username := email
              email := email
              password := some tempPassword
              userType := role
              firstName := ""
              lastName := ""
              phone := ""
              isActive := true }
          .ok (u, false, { s with users := s.users ++ [u] })
      | .error e => .error e
    match resolved with
    | .error e => (.error e, s)
    | .ok (user, user_exists, s1) =>
      let s2 : St :=
        { s1 with companyUsers := membershipStep s1.companyUsers user.id company.id role (some invitedBy.id) now }
      let tokRes := Token_get_or_create s2 user.id freshTokenKey
      let auth_token := tokRes.1
      let s3 := tokRes.2
      -- after the transaction commits: URL construction and notification
      let has_password_set := user.hasUsablePassword && user_exists
      let dashboard_path := if role == "interviewer" then "interviewer-dashboard" else "dashboard"
      let base := company.subdomain ++ "." ++ FRONTEND_BASE_URL ++ "/" ++ dashboard_path ++ "?token=" ++ auth_token.key
      let dashboard_url := if !has_password_set then base ++ "&setup=1" else base
      let msg : EmailMsg :=
        { toEmail := email
          dashboardUrl := some dashboard_url
          isNewUser := !has_password_set }
      (.ok (user, auth_token), { s3 with outbox := s3.outbox ++ [msg] })

/-- companies.helpers.is_company_admin for a specific company id
(the request user is assumed authenticated). -/
def is_company_admin (s : St) (uid cid : Nat) : Bool :=
  s.companyUsers.any (fun m =>
    m.userId == uid && m.companyId == cid && m.role == "company_admin" && m.status == "active")

/-- companies.helpers.is_company_admin with no company id: admin of any company. -/
def is_company_admin_any (s : St) (uid : Nat) : Bool :=
  s.companyUsers.any (fun m =>
    m.userId == uid && m.role == "company_admin" && m.status == "active")

/-- The active company_admin membership rows of a company. -/
def activeAdmins (s : St) (cid : Nat) : List CompanyUserR :=
  s.companyUsers.filter (fun m =>
    m.companyId == cid && m.role == "company_admin" && m.status == "active")

/-- The admin count computed by companies.views.remove_company_user:
active admin memberships of the company excluding the target user. -/
def adminCountExcluding (s : St) (cid target : Nat) : Nat :=
  (s.companyUsers.filter (fun m =>
    m.companyId == cid && m.role == "company_admin" && m.status == "active"
      && !(m.userId == target))).length

/-- companies.views.remove_company_user. The IsCompanyAdmin permission class
checks admin-of-any-company, the view body checks admin of this company;
the last-admin guard runs only when the acting user removes themselves.
`get_object_or_404` raises `MultipleObjectsReturned` (uncaught) if several
rows match; deleting the single matching row removes the pair's rows. -/
def remove_company_user (s : St) (actingUserId companyId targetUserId : Nat) :
    Except ApiErr Unit × St :=
  if !(is_company_admin_any s actingUserId) then (.error .forbidden, s)
  else if !(is_company_admin s actingUserId companyId) then (.error .forbidden, s)
  else if actingUserId == targetUserId && adminCountExcluding s companyId targetUserId == 0 then
    (.error .lastAdmin, s)
  else
    match s.companyUsers.filter (fun m => m.companyId == companyId && m.userId == targetUserId) with
    | [] => (.error .notFound, s)
    | [_] =>
      let remaining := s.companyUsers.filter (fun m => !(m.companyId == companyId && m.userId == targetUserId))
      (.ok (), { s with companyUsers := remaining })
    | _ => (.error .multipleObjectsReturned, s)

/-- The request payload / validated data of companies.helpers.validate_company_data:
an optional string per company field (absent key = `none`). -/
structure CompanyData where
  name : Option String
  subdomain : Option String
  contactEmail : Option String
  description : Option String
  website : Option String
  contactPhone : Option String
  address : Option String
  status : Option String
deriving DecidableEq

/-- companies.helpers.validate_company_data: required-field checks (falsy
counts as missing), subdomain-uniqueness check against every existing
company, copying of optional fields (on key presence), and status-choice
validation. Error list order follows the insertion order of the source. -/
def validate_company_data (s : St) (d : CompanyData) :
    List (String × String) × CompanyData :=
  let vName := presentNonEmpty d.name
  let vSub := presentNonEmpty d.subdomain
  let vCE := presentNonEmpty d.contactEmail
  let requiredErrs :=
    (if vName.isNone then [("name", "This field is required")] else [])
      ++ (if vSub.isNone then [("subdomain", "This field is required")] else [])
      ++ (if vCE.isNone then [("contact_email", "This field is required")] else [])
  let subdomainErrs :=
    match vSub with
    | some sub =>
      if s.companies.any (fun c => c.subdomain == sub) then
        [("subdomain", "This subdomain is already in use")]
      else []
    | none => []
  let statusErrs :=
    match d.status with
    | some st =>
      if ["pending", "active", "suspended", "rejected"].contains st then []
      else [("status", "Status must be one of: pending, active, suspended, rejected")]
    | none => []
  let validated : CompanyData :=
    { name := vName
      subdomain := vSub
      contactEmail := vCE
      description := d.description
      website := d.website
      contactPhone := d.contactPhone
      address := d.address
      status := d.status }
  (requiredErrs ++ subdomainErrs ++ statusErrs, validated)

/-- companies.helpers.update_company: `setattr` of each provided validated
field onto the company (the except-branch of the source cannot fire here). -/
def update_company (c : CompanyR) (d : CompanyData) : CompanyR :=
  { c with
    name := d.name.getD c.name
    subdomain := d.subdomain.getD c.subdomain
    contactEmail := d.contactEmail.getD c.contactEmail
    description := d.description.getD c.description
    website := d.website.getD c.website
    contactPhone := d.contactPhone.getD c.contactPhone
    address := d.address.getD c.address
    status := d.status.getD c.status }

/-- companies.views.update_company_view (PUT/PATCH on a company): permission
checks, 404 lookup, full validate_company_data on the request payload, then
the attribute merge. -/
def update_company_view (s : St) (actingUserId companyId : Nat) (d : CompanyData) :
    Except ApiErr CompanyR × St :=
  if !(is_company_admin_any s actingUserId) then (.error .forbidden, s)
  else if !(is_company_admin s actingUserId companyId) then (.error .forbidden, s)
  else
    match s.companies.find? (fun c => c.id == companyId) with
    | none => (.error .notFound, s)
    | some company =>
      let ev := validate_company_data s d
      if ev.1 ≠ [] then (.error (.validationErrors ev.1), s)
      else
        let company2 := update_company company ev.2
        let companies2 := s.companies.map (fun c => if c.id == companyId then company2 else c)
        (.ok company2, { s with companies := companies2 })

/-- companies.helpers.create_company: create the company (subdomain is
unique at the store level) and an active company_admin membership for the
creating user. `freshCompanyId` is the database-assigned primary key. -/
def create_company (s : St) (d : CompanyData) (user : UserR)
    (freshCompanyId : Nat) (now : Nat) : Except ApiErr CompanyR × St :=
  if s.companies.any (fun c => c.subdomain == d.subdomain.getD "") then
    (.error .integrityError, s)
  else
    let company : CompanyR :=
      { id := freshCompanyId
        name := d.name.getD ""
        subdomain := d.subdomain.getD ""
        description := d.description.getD ""
        website := d.website.getD ""
        status := d.status.getD "pending"
        contactEmail := d.contactEmail.getD ""
        contactPhone := d.contactPhone.getD ""
        address := d.address.getD "" }
    let row : CompanyUserR :=
      { userId := user.id
        companyId := freshCompanyId
        role := "company_admin"
        permissions := []
        status := "active"
        invitedById := none
        invitedAt := now
        activatedAt := some now }
    let s1 : St :=
      { s with
        companies := s.companies ++ [company]
        companyUsers := s.companyUsers ++ [row] }
    (.ok company, s1)

/-- accounts.backends.EmailBackend.authenticate: resolves the handle by
email OR username with `.get`, returns the user on a password match, `None`
on a mismatch, `None` on `DoesNotExist` — and lets
`MultipleObjectsReturned` propagate (only `DoesNotExist` is caught). -/
def EmailBackend_authenticate (s : St) (username password : String) :
    Except ApiErr (Option UserR) :=
  match getUserByEmailOrUsername s username with
  | .ok u => .ok (if u.checkPassword password then some u else none)
  | .error .doesNotExist => .ok none
  | .error e => .error e

/-- accounts.helpers.login_user: authenticate via the email backend; on
failure return the (None, None, None) triple with no state change; on
success get-or-create the token and look up a company domain. -/
def login_user (s : St) (email password freshTokenKey : String) :
    Except ApiErr (Option (UserR × TokenR × Option String)) × St :=
  match EmailBackend_authenticate s email password with
  | .error e => (.error e, s)
  | .ok none => (.ok none, s)
  | .ok (some user) =>
    let tokRes := Token_get_or_create s user.id freshTokenKey
    let token := tokRes.1
    let s1 := tokRes.2
    let company_user := (s1.companyUsers.filter (fun m => m.userId == user.id)).head?
    let company_domain : Option String :=
      match company_user with
      | some cu =>
        if ["company_admin", "hr_manager", "hr_recruiter", "interviewer", "csr"].contains user.userType then
          (s1.companies.find? (fun c => c.id == cu.companyId)).map (fun c => c.subdomain)
        else none
      | none => none
    (.ok (some (user, token, company_domain)), s1)

/-- The (user, company) key of each membership row; the store declares
`unique_together = ['user', 'company']` on these. -/
def memKeys (s : St) : List (Nat × Nat) :=
  s.companyUsers.map (fun m => (m.userId, m.companyId))

/-! Concrete example states used to evaluate the embedded operations. -/

/-- A company admin account. -/
def adminU : UserR :=
  { id := 1
    username := "a@acme.io"
    email := "a@acme.io"
    password := some "hunter22"
    userType := "company_admin"
    firstName := "Ada"
    lastName := "Admin"
    phone := ""
    isActive := true }

/-- An active tenant. -/
def acme : CompanyR :=
  { id := 30
    name := "Acme"
    subdomain := "acme"
    description := ""
    website := ""
    status := "active"
    contactEmail := "a@acme.io"
    contactPhone := ""
    address := "" }

/-- The admin's active company_admin membership of acme. -/
def adminMem : CompanyUserR :=
  { userId := 1
    companyId := 30
    role := "company_admin"
    permissions := []
    status := "active"
    invitedById := none
    invitedAt := 0
    activatedAt := some 0 }

/-- Acme with its single admin and the admin's auth token. -/
def baseSt : St :=
  { users := [adminU]
    companies := [acme]
    companyUsers := [adminMem]
    tokens := [⟨"tok-admin", 1⟩]
    outbox := [] }

/-- The user record invite_company_user creates for a fresh email on baseSt. -/
def invitedU : UserR :=
  { id := 2
    username := "new@acme.io"
    email := "new@acme.io"
    password := some "uuid-temp"
    userType := "hr_manager"
    firstName := ""
    lastName := ""
    phone := ""
    isActive := true }

/-- The invite run on baseSt for a previously-unknown email. -/
def inviteRunC1 : Except ApiErr (UserR × TokenR) × St :=
  invite_company_user baseSt acme "new@acme.io" "hr_manager" adminU "uuid-temp" 2 "tok-new" 9

/-- A provisional user mid-setup (unusable password) with an auth token,
member of acme. -/
def pendingU : UserR :=
  { id := 5
    username := "p@acme.io"
    email := "p@acme.io"
    password := none
    userType := "hr_manager"
    firstName := ""
    lastName := ""
    phone := ""
    isActive := true }

/-- Membership row of the provisional user. -/
def pendingMem : CompanyUserR :=
  { userId := 5
    companyId := 30
    role := "hr_manager"
    permissions := []
    status := "active"
    invitedById := some 1
    invitedAt := 3
    activatedAt := some 3 }

/-- baseSt plus the provisional user, their membership and their token. -/
def setupSt : St :=
  { users := [adminU, pendingU]
    companies := [acme]
    companyUsers := [adminMem, pendingMem]
    tokens := [⟨"tok-admin", 1⟩, ⟨"tok-five", 5⟩]
    outbox := [] }

/-- The complete_user_setup run on setupSt with the provisional user's token. -/
def completeRunC3 : Except ApiErr CompleteSetupResponse × St :=
  complete_user_setup setupSt (some "tok-five") (some "s3cret99") (some "Pat") (some "Lee") none "tok-six"

/-- An ambiguous credential store: one user owns the handle as an email,
another owns it as a username (the User model does not make email unique). -/
def ambSt : St :=
  { users :=
      [{ id := 11
         username := "alpha"
         email := "x@y.io"
         password := some "pw-one"
         userType := "candidate"
         firstName := ""
         lastName := ""
         phone := ""
         isActive := true },
       { id := 12
         username := "x@y.io"
         email := "other@z.io"
         password := some "pw-two"
         userType := "candidate"
         firstName := ""
         lastName := ""
         phone := ""
         isActive := true }]
    companies := []
    companyUsers := []
    tokens := []
    outbox := [] }

/-- Full update payload for acme that repeats its own current subdomain. -/
def fullAcmeData : CompanyData :=
  { name := some "Acme"
    subdomain := some "acme"
    contactEmail := some "a@acme.io"
    description := some "updated description"
    website := none
    contactPhone := none
    address := none
    status := none }

/-- Partial update payload touching only the description. -/
def partialAcmeData : CompanyData :=
  { name := none
    subdomain := none
    contactEmail := none
    description := some "only description"
    website := none
    contactPhone := none
    address := none
    status := none }

end HirePro

namespace HirePro

/-- Decidable equality for `Except` results, so concrete runs can be
checked by evaluation. -/
instance instDecidableEqExcept {e a : Type} [DecidableEq e] [DecidableEq a] :
    DecidableEq (Except e a)
  | .error x, .error y =>
    if h : x = y then .isTrue (congrArg Except.error h)
    else .isFalse (fun c => h (Except.error.inj c))
  | .error _, .ok _ => .isFalse Except.noConfusion
  | .ok _, .error _ => .isFalse Except.noConfusion
  | .ok x, .ok y =>
    if h : x = y then .isTrue (congrArg Except.ok h)
    else .isFalse (fun c => h (Except.ok.inj c))

/-! Theorems settling the claims. -/

/-- C1 (code bug exhibit): inviting a previously-unknown email creates the
user with the random temporary credential stored as a usable password
(`has_usable_password` is true, not false as specified), so the
`requires_setup` value validate_setup_token derives from it is false — and
the validate_setup_token query on the issued token does not even return it:
it aborts with the `FieldError` on the nonexistent `CompanyUser.created_at`
ordering. -/
theorem invite_unknown_email_usable_password_bug :
    inviteRunC1.1 = .ok (invitedU, ⟨"tok-new", 2⟩)
      ∧ invitedU.hasUsablePassword = true
      ∧ validate_setup_token inviteRunC1.2 (some "tok-new") = .error (.fieldError "created_at") := by
  decide

/-- C2 (code bug exhibit): for a setup token that resolves to a user,
validate_setup_token raises `FieldError` instead of returning the
(requiresSetup, user, company) payload, because the company lookup orders
`CompanyUser` rows by the nonexistent `created_at` field. -/
theorem validate_setup_token_field_error_bug :
    validate_setup_token setupSt (some "tok-five") = .error (.fieldError "created_at") := by
  decide

/-- C3 (code bug exhibit): complete_user_setup on a valid token rotates the
token and stores the credential (old token gone, a new token resolves to
the same user, `has_usable_password` true — the claimed single-use reissue
state does arrive), but the request then aborts with the `created_at`
`FieldError`, so the operation never returns success. -/
theorem complete_user_setup_field_error_bug :
    completeRunC3.1 = .error (.fieldError "created_at")
      ∧ completeRunC3.2.tokens.find? (fun t => t.key == "tok-five") = none
      ∧ completeRunC3.2.tokens.find? (fun t => t.key == "tok-six") = some ⟨"tok-six", 5⟩
      ∧ (completeRunC3.2.users.find? (fun u => u.id == 5)).map UserR.hasUsablePassword = some true := by
  decide

/-- C9 (code bug exhibit): updating acme with a full payload repeating its
own current subdomain fails the reused creation validator with a subdomain
conflict, and a partial payload (description only) fails with required-field
errors; in both cases nothing is merged. The claimed partial-merge update
is unreachable unless the subdomain is changed to a brand-new value. -/
theorem update_company_view_validation_bug :
    (update_company_view baseSt 1 30 fullAcmeData).1
        = .error (.validationErrors [("subdomain", "This subdomain is already in use")])
      ∧ (update_company_view baseSt 1 30 fullAcmeData).2 = baseSt
      ∧ (update_company_view baseSt 1 30 partialAcmeData).1
        = .error (.validationErrors
            [("name", "This field is required"),
             ("subdomain", "This field is required"),
             ("contact_email", "This field is required")])
      ∧ (update_company_view baseSt 1 30 partialAcmeData).2 = baseSt := by
  decide

/-- C6 (counterexample): the role filter of invite_company_user is not the
membership role enum. `hr_recruiter` and `csr` are `ROLE_CHOICES` values
yet rejected as invalid roles, while `recruiter` is accepted (and even
stored as a membership role) although it is outside `ROLE_CHOICES`. -/
theorem invite_role_set_counterexample :
    (invite_company_user baseSt acme "r@acme.io" "hr_recruiter" adminU "tmp1" 3 "tok-r" 9).1
        = .error (.invalidRole "hr_recruiter")
      ∧ (invite_company_user baseSt acme "c@acme.io" "csr" adminU "tmp2" 4 "tok-c" 9).1
        = .error (.invalidRole "csr")
      ∧ ("hr_recruiter" ∈ CompanyUser_ROLE_CHOICES ∧ "csr" ∈ CompanyUser_ROLE_CHOICES)
      ∧ "recruiter" ∉ CompanyUser_ROLE_CHOICES
      ∧ (invite_company_user baseSt acme "q@acme.io" "recruiter" adminU "tmp3" 6 "tok-q" 9).1
        = .ok (⟨6, "q@acme.io", "q@acme.io", some "tmp3", "recruiter", "", "", "", true⟩, ⟨"tok-q", 6⟩) := by
  decide

/-- C8 (amended): whenever the email-or-username lookup matches at most one
user and no matching user's password checks out — i.e. the handle is absent
or the credential is wrong — login_user returns the undifferentiated
failure triple and leaves the store untouched: no token is issued and no
user or membership state changes. -/
theorem login_failure_silent_amended (s : St) (handle pw fkey : String)
    (hlen : (s.users.filter (fun u => u.email == handle || u.username == handle)).length ≤ 1)
    (hbad : ∀ u ∈ s.users.filter (fun u => u.email == handle || u.username == handle),
      u.checkPassword pw = false) :
    login_user s handle pw fkey = (.ok none, s) := by
  unfold login_user EmailBackend_authenticate getUserByEmailOrUsername
  rcases hf : s.users.filter (fun u => u.email == handle || u.username == handle)
    with _ | ⟨u, _ | ⟨v, rest⟩⟩
  · simp [hf]
  · have hu : u.checkPassword pw = false := hbad u (by rw [hf]; exact List.mem_singleton.mpr rfl)
    simp [hf, hu]
  · rw [hf] at hlen
    simp at hlen

/-- Closed witness for login_failure_silent_amended: a wrong-password login
against baseSt fails silently with the state unchanged. -/
theorem login_failure_silent_amended_witness :
    login_user baseSt "a@acme.io" "wrong-password" "tok-z" = (.ok none, baseSt) :=
  login_failure_silent_amended baseSt "a@acme.io" "wrong-password" "tok-z"
    (by decide) (by decide)

/-- C6 (amended): invite_company_user reports InvalidRole exactly for roles
outside its hardcoded valid_roles list, and for such roles it mutates
nothing. -/
theorem invite_role_validation_amended (s : St) (company : CompanyR) (email role : String)
    (invitedBy : UserR) (temp : String) (nuid : Nat) (fkey : String) (now : Nat) :
    ((invite_company_user s company email role invitedBy temp nuid fkey now).1
        = .error (.invalidRole role) ↔ role ∉ validRoles)
      ∧ (role ∉ validRoles →
          (invite_company_user s company email role invitedBy temp nuid fkey now).2 = s) := by
  refine ⟨⟨fun h => ?_, fun h => by simp [invite_company_user, h]⟩,
    fun h => by simp [invite_company_user, h]⟩
  intro hin
  have hcond : ¬ role ∉ validRoles := fun c => c hin
  rw [invite_company_user, if_neg hcond] at h
  rcases hf : s.users.filter (fun u => u.email == email) with _ | ⟨u, _ | ⟨v, rest⟩⟩
  · rcases hAny : s.users.any (fun u => u.username == email) with _ | _
    · simp [getUserByEmail, hf, hAny] at h
    · simp [getUserByEmail, hf, hAny] at h
  · simp [getUserByEmail, hf] at h
  · simp [getUserByEmail, hf] at h

/-- Closed witness for invite_role_validation_amended: the rejected role
`csr` produces the InvalidRole error and leaves the store unchanged. -/
theorem invite_role_validation_amended_witness :
    (invite_company_user baseSt acme "w@acme.io" "csr" adminU "tmpw" 8 "tok-w" 9).1
        = .error (.invalidRole "csr")
      ∧ (invite_company_user baseSt acme "w@acme.io" "csr" adminU "tmpw" 8 "tok-w" 9).2 = baseSt := by
  have h := invite_role_validation_amended baseSt acme "w@acme.io" "csr" adminU "tmpw" 8 "tok-w" 9
  exact ⟨h.1.mpr (by decide), h.2 (by decide)⟩

/-- Helper: a pair-keyed filter over rows with no duplicate (user, company)
keys returns exactly the one matching row. -/
theorem filter_keyed_singleton (rows : List CompanyUserR) (p : CompanyUserR → Bool)
    (u c : Nat) (hp : ∀ x, p x = true ↔ (x.userId = u ∧ x.companyId = c))
    (hnd : (rows.map (fun x => (x.userId, x.companyId))).Nodup)
    (m : CompanyUserR) (hm : m ∈ rows) (hmp : p m = true) :
    rows.filter p = [m] := by
  induction rows with
  | nil => cases hm
  | cons r rs ih =>
    rw [List.map_cons, List.nodup_cons] at hnd
    rcases List.mem_cons.mp hm with h | h
    · subst h
      rw [List.filter_cons_of_pos hmp]
      have hnil : rs.filter p = [] := by
        rw [List.filter_eq_nil_iff]
        intro x hx hpx
        obtain ⟨h1, h2⟩ := (hp x).mp hpx
        obtain ⟨h3, h4⟩ := (hp m).mp hmp
        apply hnd.1
        have hkey : (m.userId, m.companyId) = (x.userId, x.companyId) := by
          rw [h1, h2, h3, h4]
        rw [hkey]
        exact List.mem_map.mpr ⟨x, hx, rfl⟩
      rw [hnil]
    · have hpr : p r = false := by
        cases hq : p r with
        | false => rfl
        | true =>
          exfalso
          obtain ⟨h1, h2⟩ := (hp r).mp hq
          obtain ⟨h3, h4⟩ := (hp m).mp hmp
          apply hnd.1
          have hkey : (r.userId, r.companyId) = (m.userId, m.companyId) := by
            rw [h1, h2, h3, h4]
          rw [hkey]
          exact List.mem_map.mpr ⟨m, h, rfl⟩
      rw [List.filter_cons_of_neg (by simp [hpr])]
      exact ih hnd.2 h

/-- Helper: updating the first pair-matching row's role keeps every
(user, company) key. -/
theorem setRoleFirst_map_keys (rows : List CompanyUserR) (u c : Nat) (role : String) :
    (setRoleFirst rows u c role).map (fun x => (x.userId, x.companyId))
      = rows.map (fun x => (x.userId, x.companyId)) := by
  induction rows with
  | nil => rfl
  | cons r rs ih =>
    rw [setRoleFirst]
    by_cases h : (r.userId == u && r.companyId == c) = true
    · simp [h]
    · simp [h, ih]

/-- Helper: if the pair filter selects exactly `m`, then after setRoleFirst
it selects exactly `m` with the updated role. -/
theorem setRoleFirst_filter (rows : List CompanyUserR) (p : CompanyUserR → Bool)
    (u c : Nat) (role : String)
    (hp : ∀ x, p x = true ↔ (x.userId = u ∧ x.companyId = c))
    (m : CompanyUserR) (hfil : rows.filter p = [m]) :
    (setRoleFirst rows u c role).filter p = [{ m with role := role }] := by
  induction rows with
  | nil => simp at hfil
  | cons r rs ih =>
    rw [setRoleFirst]
    by_cases h : (r.userId == u && r.companyId == c) = true
    · have hru : r.userId = u ∧ r.companyId = c := by
        simpa [Bool.and_eq_true, beq_iff_eq] using h
      have hpr : p r = true := (hp r).mpr hru
      rw [List.filter_cons_of_pos hpr] at hfil
      injection hfil with h1 h2
      subst h1
      have hpr2 : p { r with role := role } = true := (hp _).mpr ⟨hru.1, hru.2⟩
      rw [if_pos h, List.filter_cons_of_pos hpr2, h2]
    · have hpr : p r = false := by
        cases hq : p r with
        | false => rfl
        | true =>
          exfalso
          obtain ⟨h1, h2⟩ := (hp r).mp hq
          exact h (by simp [h1, h2])
      rw [List.filter_cons_of_neg (by simp [hpr])] at hfil
      rw [if_neg h, List.filter_cons_of_neg (by simp [hpr])]
      exact ih hfil

/-- Helper: the membership create-or-upgrade step preserves uniqueness of
(user, company) keys. -/
theorem membershipStep_nodup (rows : List CompanyUserR) (uid cid : Nat) (role : String)
    (ib : Option Nat) (now : Nat)
    (hnd : (rows.map (fun x => (x.userId, x.companyId))).Nodup) :
    ((membershipStep rows uid cid role ib now).map (fun x => (x.userId, x.companyId))).Nodup := by
  rw [membershipStep]
  rcases hfp : rows.filter (fun m => m.userId == uid && m.companyId == cid) with _ | ⟨x, xs⟩
  · simp only [hfp, List.head?_nil]
    rw [List.map_append, List.nodup_append]
    refine ⟨hnd, by simp, ?_⟩
    intro a ha hb
    simp only [List.map_cons, List.map_nil, List.mem_singleton] at hb
    subst hb
    obtain ⟨y, hy, hyk⟩ := List.mem_map.mp ha
    have hyf : y ∈ rows.filter (fun m => m.userId == uid && m.companyId == cid) := by
      refine List.mem_filter.mpr ⟨hy, ?_⟩
      have h1 : y.userId = uid := congrArg Prod.fst hyk
      have h2 : y.companyId = cid := congrArg Prod.snd hyk
      simp [h1, h2]
    rw [hfp] at hyf
    cases hyf
  · simp only [hfp, List.head?_cons]
    split_ifs with h1 h2
    · rw [setRoleFirst_map_keys]
      exact hnd
    · exact hnd
    · exact hnd

/-- Helper: after the membership create-or-upgrade step there is exactly
one row for the stepped (user, company) pair. -/
theorem membershipStep_pair_count (rows : List CompanyUserR) (uid cid : Nat) (role : String)
    (ib : Option Nat) (now : Nat)
    (hnd : (rows.map (fun x => (x.userId, x.companyId))).Nodup) :
    ((membershipStep rows uid cid role ib now).filter
      (fun m => m.userId == uid && m.companyId == cid)).length = 1 := by
  have hp : ∀ x : CompanyUserR,
      (x.userId == uid && x.companyId == cid) = true ↔ (x.userId = uid ∧ x.companyId = cid) := by
    intro x
    simp [Bool.and_eq_true, beq_iff_eq]
  rw [membershipStep]
  rcases hfp : rows.filter (fun m => m.userId == uid && m.companyId == cid) with _ | ⟨x, xs⟩
  · simp only [hfp, List.head?_nil]
    rw [List.filter_append, hfp]
    simp
  · simp only [hfp, List.head?_cons]
    have hx : x ∈ rows ∧ (x.userId == uid && x.companyId == cid) = true := by
      have := hfp ▸ List.mem_cons_self x xs
      exact List.mem_filter.mp this
    have hsing : rows.filter (fun m => m.userId == uid && m.companyId == cid) = [x] :=
      filter_keyed_singleton rows _ uid cid hp hnd x hx.1 hx.2
    split_ifs with h1 h2
    · rw [setRoleFirst_filter rows _ uid cid role hp x hsing]
      rfl
    · rw [hsing]
      rfl
    · rw [hsing]
      rfl

/-- Helper: Token get-or-create never touches the membership ledger. -/
theorem Token_get_or_create_companyUsers (s : St) (uid : Nat) (k : String) :
    ((Token_get_or_create s uid k).2).companyUsers = s.companyUsers := by
  rcases hfind : s.tokens.find? (fun t => t.userId == uid) with _ | t <;>
    simp [Token_get_or_create, hfind]

/-- Helper: Token get-or-create never touches the outbox. -/
theorem Token_get_or_create_outbox (s : St) (uid : Nat) (k : String) :
    ((Token_get_or_create s uid k).2).outbox = s.outbox := by
  rcases hfind : s.tokens.find? (fun t => t.userId == uid) with _ | t <;>
    simp [Token_get_or_create, hfind]

/-- Helper: setup completion never touches the membership ledger. -/
theorem complete_user_setup_companyUsers (s : St)
    (tk pw fn ln ph : Option String) (fkey : String) :
    ((complete_user_setup s tk pw fn ln ph fkey).2).companyUsers = s.companyUsers := by
  unfold complete_user_setup
  repeat' split
  all_goals rfl

/-- Helper: login never touches the membership ledger. -/
theorem login_user_companyUsers (s : St) (e pw fkey : String) :
    ((login_user s e pw fkey).2).companyUsers = s.companyUsers := by
  unfold login_user
  repeat' split
  all_goals first
    | rfl
    | exact Token_get_or_create_companyUsers _ _ _

/-- Helper: the company update endpoint never touches the membership ledger. -/
theorem update_company_view_companyUsers (s : St) (a cid : Nat) (d : CompanyData) :
    ((update_company_view s a cid d).2).companyUsers = s.companyUsers := by
  unfold update_company_view
  repeat' split
  all_goals try rfl
  all_goals dsimp only
  all_goals split <;> rfl

/-- C7: with unique (user, company) keys in the store, every ledger-touching
operation preserves the at-most-one-membership-per-pair invariant, and a
successful invite leaves exactly one membership row for the invited user
and company — so any number of sequential invites for the same (email,
company) keeps exactly one row. -/
theorem membership_pair_uniqueness (s : St) (hnd : (memKeys s).Nodup) :
    (∀ (company : CompanyR) (email role : String) (invitedBy : UserR)
        (temp : String) (nuid : Nat) (fkey : String) (now : Nat),
      (memKeys (invite_company_user s company email role invitedBy temp nuid fkey now).2).Nodup
        ∧ ∀ (u : UserR) (tok : TokenR),
            (invite_company_user s company email role invitedBy temp nuid fkey now).1 = .ok (u, tok) →
            ((invite_company_user s company email role invitedBy temp nuid fkey now).2.companyUsers.filter
              (fun x => x.userId == u.id && x.companyId == company.id)).length = 1)
      ∧ (∀ a c t, (memKeys (remove_company_user s a c t).2).Nodup)
      ∧ (∀ (d : CompanyData) (user : UserR) (fcid : Nat) (now : Nat),
          (∀ m ∈ s.companyUsers, m.companyId ≠ fcid) →
          (memKeys (create_company s d user fcid now).2).Nodup)
      ∧ (∀ tk pw fn ln ph fkey,
          (memKeys (complete_user_setup s tk pw fn ln ph fkey).2).Nodup)
      ∧ (∀ e pw fkey, (memKeys (login_user s e pw fkey).2).Nodup)
      ∧ (∀ a cid d, (memKeys (update_company_view s a cid d).2).Nodup) := by
  refine ⟨?_, ?_, ?_, ?_, ?_, ?_⟩
  · intro company email role invitedBy temp nuid fkey now
    by_cases hr : role ∉ validRoles
    · constructor
      · simp only [invite_company_user, if_pos hr]
        exact hnd
      · intro u tok h
        simp only [invite_company_user, if_pos hr] at h
        cases h
    · rcases hf : s.users.filter (fun v => v.email == email) with _ | ⟨u1, _ | ⟨v1, rest⟩⟩
      · rcases hAny : s.users.any (fun v => v.username == email) with _ | _
        · constructor
          · simp only [invite_company_user, if_neg hr, getUserByEmail, hf, hAny,
              memKeys, Token_get_or_create_companyUsers]
            exact membershipStep_nodup _ _ _ _ _ _ hnd
          · intro u tok h
            simp only [invite_company_user, if_neg hr, getUserByEmail, hf, hAny] at h
            obtain ⟨hu, htok⟩ := Prod.mk.injEq .. ▸ Except.ok.inj h
            subst hu
            simp only [invite_company_user, if_neg hr, getUserByEmail, hf, hAny,
              Token_get_or_create_companyUsers]
            exact membershipStep_pair_count _ _ _ _ _ _ hnd
        · constructor
          · simp only [invite_company_user, if_neg hr, getUserByEmail, hf, hAny]
            exact hnd
          · intro u tok h
            simp only [invite_company_user, if_neg hr, getUserByEmail, hf, hAny] at h
            cases h
      · constructor
        · simp only [invite_company_user, if_neg hr, getUserByEmail, hf,
            memKeys, Token_get_or_create_companyUsers]
          exact membershipStep_nodup _ _ _ _ _ _ hnd
        · intro u tok h
          simp only [invite_company_user, if_neg hr, getUserByEmail, hf] at h
          obtain ⟨hu, htok⟩ := Prod.mk.injEq .. ▸ Except.ok.inj h
          subst hu
          simp only [invite_company_user, if_neg hr, getUserByEmail, hf,
            Token_get_or_create_companyUsers]
          exact membershipStep_pair_count _ _ _ _ _ _ hnd
      · constructor
        · simp only [invite_company_user, if_neg hr, getUserByEmail, hf]
          exact hnd
        · intro u tok h
          simp only [invite_company_user, if_neg hr, getUserByEmail, hf] at h
          cases h
  · intro a c t
    rw [remove_company_user]
    split_ifs with h1 h2 h3
    · exact hnd
    · exact hnd
    · exact hnd
    · split
      · exact hnd
      · exact hnd.sublist (List.Sublist.map _ (List.filter_sublist _))
      · exact hnd
  · intro d user fcid now hfresh
    rw [create_company]
    split_ifs with h1
    · exact hnd
    · simp only [memKeys, List.map_append, List.nodup_append]
      refine ⟨hnd, by simp, ?_⟩
      intro a ha hb
      simp only [List.map_cons, List.map_nil, List.mem_singleton] at hb
      subst hb
      obtain ⟨y, hy, hyk⟩ := List.mem_map.mp ha
      exact hfresh y hy (congrArg Prod.snd hyk)
  · intro tk pw fn ln ph fkey
    simp only [memKeys, complete_user_setup_companyUsers]
    exact hnd
  · intro e pw fkey
    simp only [memKeys, login_user_companyUsers]
    exact hnd
  · intro a cid d
    simp only [memKeys, update_company_view_companyUsers]
    exact hnd

/-- Closed witness for membership_pair_uniqueness: a successful invite on
baseSt keeps unique membership keys. -/
theorem membership_pair_uniqueness_witness :
    (memKeys (invite_company_user baseSt acme "b@acme.io" "hr_manager" adminU "tmpb" 7 "tok-b" 5).2).Nodup :=
  ((membership_pair_uniqueness baseSt (by decide)).1 acme "b@acme.io" "hr_manager" adminU "tmpb" 7 "tok-b" 5).1

/-- Helper: the admin check holds exactly when an active company_admin
membership row of the company belongs to the user. -/
theorem is_company_admin_iff (s : St) (a c : Nat) :
    is_company_admin s a c = true ↔ ∃ m ∈ activeAdmins s c, m.userId = a := by
  constructor
  · intro h
    simp only [is_company_admin, List.any_eq_true, Bool.and_eq_true, beq_iff_eq, and_assoc] at h
    obtain ⟨m, hm, h1, h2, h3, h4⟩ := h
    exact ⟨m, List.mem_filter.mpr ⟨hm, by simp [h2, h3, h4]⟩, h1⟩
  · rintro ⟨m, hm, hU⟩
    have h2 := List.mem_filter.mp hm
    simp only [is_company_admin, List.any_eq_true]
    refine ⟨m, h2.1, ?_⟩
    have h3 := h2.2
    simp only [Bool.and_eq_true, beq_iff_eq, and_assoc] at h3
    simp [hU, h3.1, h3.2.1, h3.2.2]

/-- Helper: an admin of a specific company passes the any-company admin
check of the permission class. -/
theorem is_company_admin_any_of_admin (s : St) (a c : Nat)
    (h : is_company_admin s a c = true) : is_company_admin_any s a = true := by
  simp only [is_company_admin, List.any_eq_true, Bool.and_eq_true, and_assoc] at h
  obtain ⟨m, hm, h1, h2, h3, h4⟩ := h
  simp only [is_company_admin_any, List.any_eq_true]
  exact ⟨m, hm, by simp [h1, h3, h4]⟩

/-- C4: for a remover who is an active company_admin of the company, the
removal endpoint never leaves the company without an active company_admin
membership; removing the sole active admin membership (necessarily a
self-removal) fails with the last-admin error and changes nothing, and
removing one of at least two active admin memberships succeeds and deletes
exactly that membership. -/
theorem remove_company_user_last_admin_guard (s : St) (a c t : Nat)
    (hnd : (memKeys s).Nodup)
    (hadm : is_company_admin s a c = true) :
    activeAdmins (remove_company_user s a c t).2 c ≠ []
      ∧ ((∀ m ∈ activeAdmins s c, m.userId = t) →
          (remove_company_user s a c t).1 = .error .lastAdmin
            ∧ (remove_company_user s a c t).2 = s)
      ∧ ((∃ m ∈ activeAdmins s c, m.userId = t) →
          (∃ m ∈ activeAdmins s c, m.userId ≠ t) →
          (remove_company_user s a c t).1 = .ok ()
            ∧ (remove_company_user s a c t).2.companyUsers.filter
                (fun m => m.companyId == c && m.userId == t) = []) := by
  have hany : is_company_admin_any s a = true := is_company_admin_any_of_admin s a c hadm
  obtain ⟨ma, hma, hmaU⟩ := (is_company_admin_iff s a c).mp hadm
  have hpPair : ∀ x : CompanyUserR,
      (x.companyId == c && x.userId == t) = true ↔ (x.userId = t ∧ x.companyId = c) := by
    intro x
    simp only [Bool.and_eq_true, beq_iff_eq]
    exact and_comm
  have hsurv : ∀ m0 ∈ activeAdmins s c, m0.userId ≠ t →
      m0 ∈ activeAdmins
        { s with companyUsers := s.companyUsers.filter (fun m => !(m.companyId == c && m.userId == t)) } c := by
    intro m0 hm0 hne
    have h2 := List.mem_filter.mp hm0
    refine List.mem_filter.mpr ⟨List.mem_filter.mpr ⟨h2.1, ?_⟩, h2.2⟩
    simp [hne]
  refine ⟨?_, ?_, ?_⟩
  · by_cases hat : a = t
    · have hbeq : (a == t) = true := beq_iff_eq.mpr hat
      rcases hcnt : adminCountExcluding s c t with _ | n
      · have hres : remove_company_user s a c t = (.error .lastAdmin, s) := by
          simp [remove_company_user, hany, hadm, hbeq, hcnt]
        rw [hres]
        exact List.ne_nil_of_mem hma
      · have hcond : (a == t && adminCountExcluding s c t == 0) = false := by
          simp [hcnt]
        rcases hfp : s.companyUsers.filter (fun m => m.companyId == c && m.userId == t)
          with _ | ⟨x, _ | ⟨y, ys⟩⟩
        · have hres : remove_company_user s a c t = (.error .notFound, s) := by
            simp [remove_company_user, hany, hadm, hcond, hfp]
          rw [hres]
          exact List.ne_nil_of_mem hma
        · have hres : remove_company_user s a c t
              = (.ok (), { s with companyUsers := s.companyUsers.filter (fun m => !(m.companyId == c && m.userId == t)) }) := by
            simp [remove_company_user, hany, hadm, hcond, hfp]
          rw [hres]
          have hne2 : s.companyUsers.filter (fun m =>
              m.companyId == c && m.role == "company_admin" && m.status == "active"
                && !(m.userId == t)) ≠ [] := by
            intro h0
            simp only [adminCountExcluding] at hcnt
            rw [h0] at hcnt
            simp at hcnt
          obtain ⟨m0, hm0⟩ := List.exists_mem_of_ne_nil _ hne2
          have h3 := List.mem_filter.mp hm0
          simp only [Bool.and_eq_true, beq_iff_eq, Bool.not_eq_true', beq_eq_false_iff_ne,
            and_assoc] at h3
          have hm0adm : m0 ∈ activeAdmins s c :=
            List.mem_filter.mpr ⟨h3.1, by simp [h3.2.1, h3.2.2.1, h3.2.2.2.1]⟩
          exact List.ne_nil_of_mem (hsurv m0 hm0adm h3.2.2.2.2)
        · have hres : remove_company_user s a c t = (.error .multipleObjectsReturned, s) := by
            simp [remove_company_user, hany, hadm, hcond, hfp]
          rw [hres]
          exact List.ne_nil_of_mem hma
    · have hcond : (a == t && adminCountExcluding s c t == 0) = false := by
        simp [beq_eq_false_iff_ne.mpr hat]
      rcases hfp : s.companyUsers.filter (fun m => m.companyId == c && m.userId == t)
        with _ | ⟨x, _ | ⟨y, ys⟩⟩
      · have hres : remove_company_user s a c t = (.error .notFound, s) := by
          simp [remove_company_user, hany, hadm, hcond, hfp]
        rw [hres]
        exact List.ne_nil_of_mem hma
      · have hres : remove_company_user s a c t
            = (.ok (), { s with companyUsers := s.companyUsers.filter (fun m => !(m.companyId == c && m.userId == t)) }) := by
          simp [remove_company_user, hany, hadm, hcond, hfp]
        rw [hres]
        refine List.ne_nil_of_mem (hsurv ma hma ?_)
        rw [hmaU]
        exact hat
      · have hres : remove_company_user s a c t = (.error .multipleObjectsReturned, s) := by
          simp [remove_company_user, hany, hadm, hcond, hfp]
        rw [hres]
        exact List.ne_nil_of_mem hma
  · intro hall
    have hat : a = t := by
      rw [← hmaU]
      exact hall ma hma
    have hcnt : adminCountExcluding s c t = 0 := by
      simp only [adminCountExcluding]
      rw [List.length_eq_zero, List.filter_eq_nil_iff]
      intro m hm hpm
      simp only [Bool.and_eq_true, beq_iff_eq, Bool.not_eq_true', beq_eq_false_iff_ne,
        and_assoc] at hpm
      have hmem : m ∈ activeAdmins s c :=
        List.mem_filter.mpr ⟨hm, by simp [hpm.1, hpm.2.1, hpm.2.2.1]⟩
      exact hpm.2.2.2 (hall m hmem)
    have hres : remove_company_user s a c t = (.error .lastAdmin, s) := by
      simp [remove_company_user, hany, hadm, beq_iff_eq.mpr hat, hcnt]
    exact ⟨by rw [hres], by rw [hres]⟩
  · rintro ⟨mt, hmt, hmtU⟩ ⟨mo, hmo, hmoU⟩
    have hmtf := List.mem_filter.mp hmt
    have hmtfields := hmtf.2
    simp only [Bool.and_eq_true, beq_iff_eq, and_assoc] at hmtfields
    have hsing : s.companyUsers.filter (fun m => m.companyId == c && m.userId == t) = [mt] := by
      apply filter_keyed_singleton s.companyUsers _ t c hpPair hnd mt hmtf.1
      simp [hmtfields.1, hmtU]
    have hcnt0 : adminCountExcluding s c t ≠ 0 := by
      intro h0
      simp only [adminCountExcluding] at h0
      rw [List.length_eq_zero, List.filter_eq_nil_iff] at h0
      have hmof := List.mem_filter.mp hmo
      apply h0 mo hmof.1
      have h5 := hmof.2
      simp only [Bool.and_eq_true, beq_iff_eq, and_assoc] at h5
      simp [h5.1, h5.2.1, h5.2.2, beq_eq_false_iff_ne.mpr hmoU]
    have hcond : (a == t && adminCountExcluding s c t == 0) = false := by
      simp [beq_eq_false_iff_ne.mpr hcnt0]
    have hres : remove_company_user s a c t
        = (.ok (), { s with companyUsers := s.companyUsers.filter (fun m => !(m.companyId == c && m.userId == t)) }) := by
      simp [remove_company_user, hany, hadm, hcond, hsing]
    rw [hres]
    refine ⟨rfl, ?_⟩
    rw [List.filter_filter, List.filter_eq_nil_iff]
    intro m hm h
    simp at h
    tauto

/-- Closed witness for remove_company_user_last_admin_guard: on baseSt the
sole admin removing themselves hits the last-admin error and the store is
untouched. -/
theorem remove_company_user_last_admin_guard_witness :
    (remove_company_user baseSt 1 30 1).1 = .error .lastAdmin
      ∧ (remove_company_user baseSt 1 30 1).2 = baseSt :=
  (remove_company_user_last_admin_guard baseSt 1 30 1 (by decide) (by decide)).2.1 (by decide)

/-- Helper: a re-invite never touches an existing company_admin membership
when the requested role is not company_admin. -/
theorem membershipStep_admin_preserved (rows : List CompanyUserR) (uid cid : Nat)
    (role : String) (ib : Option Nat) (now : Nat) (m : CompanyUserR)
    (hfil : rows.filter (fun x => x.userId == uid && x.companyId == cid) = [m])
    (hmadm : m.role = "company_admin") (hrole : role ≠ "company_admin") :
    membershipStep rows uid cid role ib now = rows := by
  rw [membershipStep, hfil]
  simp only [List.head?_cons]
  have h1 : m.role ≠ role := by
    rw [hmadm]
    exact fun hh => hrole hh.symm
  rw [if_pos h1, if_neg ?hneg]
  case hneg =>
    rintro (h | h)
    · exact hrole h
    · exact h (by simp [hmadm])

/-- Helper: a re-invite of a non-admin membership sets the requested role on
exactly that membership row. -/
theorem membershipStep_upgrade (rows : List CompanyUserR) (uid cid : Nat)
    (role : String) (ib : Option Nat) (now : Nat) (m : CompanyUserR)
    (hfil : rows.filter (fun x => x.userId == uid && x.companyId == cid) = [m])
    (hmnadm : m.role ≠ "company_admin") :
    (membershipStep rows uid cid role ib now).filter
        (fun x => x.userId == uid && x.companyId == cid)
      = [{ m with role := role }] := by
  have hp : ∀ x : CompanyUserR,
      (x.userId == uid && x.companyId == cid) = true ↔ (x.userId = uid ∧ x.companyId = cid) := by
    intro x
    simp [Bool.and_eq_true, beq_iff_eq]
  rw [membershipStep, hfil]
  simp only [List.head?_cons]
  by_cases heq : m.role = role
  · rw [if_neg (not_not_intro heq), hfil, ← heq]
  · rw [if_pos heq, if_pos (Or.inr (by simp [hmnadm]))]
    exact setRoleFirst_filter rows _ uid cid role hp m hfil

/-- C5: on a store with unique membership keys, re-inviting the single user
holding an email to a company where they already have a membership follows
the upgrade policy: an existing company_admin membership keeps its role
under any requested role other than company_admin, and an existing
non-admin membership ends with exactly the requested (accepted) role. -/
theorem invite_reinvite_role_policy (s : St) (company : CompanyR) (email role : String)
    (invitedBy : UserR) (temp : String) (nuid : Nat) (fkey : String) (now : Nat)
    (u : UserR) (m : CompanyUserR)
    (hnd : (memKeys s).Nodup)
    (hu : s.users.filter (fun v => v.email == email) = [u])
    (hm : m ∈ s.companyUsers) (hmu : m.userId = u.id) (hmc : m.companyId = company.id) :
    (role ≠ "company_admin" → m.role = "company_admin" →
        (invite_company_user s company email role invitedBy temp nuid fkey now).2.companyUsers.filter
          (fun x => x.userId == u.id && x.companyId == company.id) = [m])
      ∧ (role ∈ validRoles → m.role ≠ "company_admin" →
        (invite_company_user s company email role invitedBy temp nuid fkey now).2.companyUsers.filter
          (fun x => x.userId == u.id && x.companyId == company.id) = [{ m with role := role }]) := by
  have hp : ∀ x : CompanyUserR,
      (x.userId == u.id && x.companyId == company.id) = true
        ↔ (x.userId = u.id ∧ x.companyId = company.id) := by
    intro x
    simp [Bool.and_eq_true, beq_iff_eq]
  have hfil : s.companyUsers.filter (fun x => x.userId == u.id && x.companyId == company.id) = [m] :=
    filter_keyed_singleton _ _ _ _ hp hnd m hm (by simp [hmu, hmc])
  constructor
  · intro hrole hmadm
    by_cases hr : role ∉ validRoles
    · simp only [invite_company_user, if_pos hr]
      exact hfil
    · simp only [invite_company_user, if_neg hr, getUserByEmail, hu,
        Token_get_or_create_companyUsers]
      rw [membershipStep_admin_preserved _ _ _ _ _ _ m hfil hmadm hrole]
      exact hfil
  · intro hrin hmnadm
    have hr : ¬ role ∉ validRoles := fun hc => hc hrin
    simp only [invite_company_user, if_neg hr, getUserByEmail, hu,
      Token_get_or_create_companyUsers]
    exact membershipStep_upgrade _ _ _ _ _ _ m hfil hmnadm

/-- Closed witness for invite_reinvite_role_policy: re-inviting baseSt's
company_admin as hr_manager leaves the admin membership untouched. -/
theorem invite_reinvite_role_policy_witness :
    (invite_company_user baseSt acme "a@acme.io" "hr_manager" adminU "tmpx" 9 "tok-x" 4).2.companyUsers.filter
      (fun x => x.userId == adminU.id && x.companyId == acme.id) = [adminMem] :=
  (invite_reinvite_role_policy baseSt acme "a@acme.io" "hr_manager" adminU "tmpx" 9 "tok-x" 4
    adminU adminMem (by decide) (by decide) (by decide) (by decide) (by decide)).1
    (by decide) (by decide)

/-- C10: for every invite on an email with no existing user (and no
colliding username), the invite succeeds, the created user's randomly
generated credential is stored as a usable password, and the emailed
dashboard URL nevertheless carries the "&setup=1" marker with the
notification flagged is_new_user — the marker is decided by prior user
existence, not by password usability. -/
theorem invite_new_user_setup_flag (s : St) (company : CompanyR) (email role : String)
    (invitedBy : UserR) (temp : String) (nuid : Nat) (fkey : String) (now : Nat)
    (hrole : role ∈ validRoles)
    (hnew : s.users.filter (fun v => v.email == email) = [])
    (hname : s.users.any (fun v => v.username == email) = false) :
    (∃ u tok, (invite_company_user s company email role invitedBy temp nuid fkey now).1
          = .ok (u, tok) ∧ u.hasUsablePassword = true)
      ∧ ∃ msg pre,
          (invite_company_user s company email role invitedBy temp nuid fkey now).2.outbox
              = s.outbox ++ [msg]
            ∧ msg.dashboardUrl = some (pre ++ "&setup=1")
            ∧ msg.isNewUser = true := by
  have hr : ¬ role ∉ validRoles := fun hc => hc hrole
  constructor
  · simp only [invite_company_user, if_neg hr, getUserByEmail, hnew, hname]
    exact ⟨_, _, rfl, rfl⟩
  · simp only [invite_company_user, if_neg hr, getUserByEmail, hnew, hname,
      Token_get_or_create_outbox, Bool.and_false, Bool.not_false, if_true]
    exact ⟨_, _, rfl, rfl, rfl⟩

/-- Closed witness for invite_new_user_setup_flag, applied to baseSt with a
fresh interviewer email. -/
theorem invite_new_user_setup_flag_witness :
    (∃ u tok, (invite_company_user baseSt acme "n@acme.io" "interviewer" adminU "tmp9" 12 "tok-9" 6).1
          = .ok (u, tok) ∧ u.hasUsablePassword = true)
      ∧ ∃ msg pre,
          (invite_company_user baseSt acme "n@acme.io" "interviewer" adminU "tmp9" 12 "tok-9" 6).2.outbox
              = baseSt.outbox ++ [msg]
            ∧ msg.dashboardUrl = some (pre ++ "&setup=1")
            ∧ msg.isNewUser = true :=
  invite_new_user_setup_flag baseSt acme "n@acme.io" "interviewer" adminU "tmp9" 12 "tok-9" 6
    (by decide) (by decide) (by decide)

/-- C8 (counterexample): when the login handle matches two users (one by
email, one by username — the store does not make email unique), the
credential check does not return the undifferentiated failure: the uncaught
`MultipleObjectsReturned` from `User.objects.get` propagates out of
login_user as an unhandled error. -/
theorem login_ambiguous_match_counterexample :
    (login_user ambSt "x@y.io" "pw-one" "tok-z").1 = .error .multipleObjectsReturned
      ∧ (login_user ambSt "x@y.io" "pw-one" "tok-z").1 ≠ .ok none := by
  decide

end HirePro
